import Mathlib

/-!
Shallow embedding of the Moxfield Card Pricer content script
(`content.js`): card-name extraction, price resolution against the
remote card-catalog search API, the in-memory price cache, the
annotation step, and the mutation-debounce coordinator.

Modelling conventions: JavaScript strings are `String`, nullable or
possibly-undefined values are `Option`, decimal prices are `Rat`, the
DOM card element is a record of exactly the fields the script reads,
and the remote API is a function from card name to a `FetchResult`.
Network calls and `console.error` emissions are counted/flagged in the
returned outcome records so that claims about them can be stated.
-/

namespace MoxPricer

set_option maxRecDepth 40000

/-- JavaScript string truthiness for a possibly-missing string value:
`undefined`/`null` and the empty string are falsy. -/
def truthy : Option String → Bool
  | none => false
  | some s => !(s == "")

/-- JavaScript `a || b` on possibly-missing strings: yields `a` when
truthy, else `b` (which may itself be falsy). -/
def jsOr (a b : Option String) : Option String :=
  if truthy a then a else b

/-- Whitespace recognised when modelling JavaScript `trim` and the
leading-whitespace skip of `parseFloat`. -/
def isSpaceChar (c : Char) : Bool :=
  c == ' ' || c == '\t' || c == '\n' || c == '\r'

/-- JavaScript `String.prototype.trim`, modelled over the character
list of the string. -/
def jsTrim (s : String) : String :=
  String.mk (((s.data.dropWhile isSpaceChar).reverse.dropWhile isSpaceChar).reverse)

/-- Per-character lowercasing, modelling `toLowerCase` on the ASCII
names the script handles. -/
def lowerStr (s : String) : String :=
  String.mk (s.data.map Char.toLower)

/-- Numeric value of a run of decimal digit characters. -/
def digitsToNat (l : List Char) : Nat :=
  l.foldl (fun a c => a * 10 + (c.toNat - 48)) 0

/-- JavaScript `parseFloat` on the decimal price strings the catalog
returns: skip leading whitespace, optional sign, digits, optional
decimal point and fraction digits, ignore any trailing characters;
`none` models `NaN` (no digits found).  Exponent forms do not occur in
price facets and are not modelled. -/
def parseFloat? (s : String) : Option Rat :=
  let cs := s.data.dropWhile isSpaceChar
  let sgncs : Int × List Char :=
    match cs with
    | '-' :: r => (-1, r)
    | '+' :: r => (1, r)
    | _ => (1, cs)
  let ip := sgncs.2.takeWhile Char.isDigit
  let rest := sgncs.2.dropWhile Char.isDigit
  let fp :=
    match rest with
    | '.' :: r => r.takeWhile Char.isDigit
    | _ => []
  if ip.isEmpty && fp.isEmpty then none
  else
    some ((sgncs.1 : Rat) *
      ((digitsToNat ip : Rat) + (digitsToNat fp : Rat) / ((10 : Rat) ^ fp.length)))

/-- Decimal digit character for `n % 10`. -/
def digitChar (n : Nat) : Char := Char.ofNat (48 + n % 10)

/-- Decimal digit list of a natural number, with explicit fuel so that
the definition is structural and kernel-evaluable. -/
def natDigits : Nat → Nat → List Char
  | 0, _ => []
  | fuel + 1, n =>
    if n < 10 then [digitChar n]
    else natDigits fuel (n / 10) ++ [digitChar (n % 10)]

/-- Decimal rendering of a natural number. -/
def natToStr (n : Nat) : String := String.mk (natDigits (n + 1) n)

/-- JavaScript `Number.prototype.toFixed(2)` on the (nonnegative)
prices the script displays: round to cents, render with exactly two
fraction digits. -/
def toFixed2 (q : Rat) : String :=
  let cents : Int := Rat.floor (q * 100 + 1 / 2)
  let mag := cents.natAbs
  let sign := if cents < 0 then "-" else ""
  sign ++ natToStr (mag / 100) ++ "." ++
    (if mag % 100 < 10 then "0" ++ natToStr (mag % 100) else natToStr (mag % 100))

/-! ### The EDHREC companion slug (content.js line 53) -/

/-- Characters that survive the slug regex `[^a-z0-9]`: lowercase ASCII
letters and digits. -/
def isSlugChar (c : Char) : Bool :=
  ('a' ≤ c && c ≤ 'z') || ('0' ≤ c && c ≤ '9')

/-- The global regex replace of `[^a-z0-9]+` by `"-"`: every maximal
run of non-slug characters collapses to a single hyphen.  The flag
records whether we are inside such a run. -/
def collapseGo : Bool → List Char → List Char
  | _, [] => []
  | inRun, c :: cs =>
    if isSlugChar c then c :: collapseGo false cs
    else if inRun then collapseGo true cs
    else '-' :: collapseGo true cs

/-- Replace every run of non-alphanumeric characters with one hyphen. -/
def collapseRuns (l : List Char) : List Char := collapseGo false l

/-- The `^-` alternative of the regex `/^-|-$/g`: remove one leading
hyphen when present. -/
def dropLead (l : List Char) : List Char :=
  match l with
  | c :: r => if c = '-' then r else l
  | [] => []

/-- The `-$` alternative of the regex `/^-|-$/g`: remove one trailing
hyphen when present. -/
def dropTrail (l : List Char) : List Char :=
  match l.reverse with
  | c :: r => if c = '-' then r.reverse else l
  | [] => l

/-- Lowercased, run-collapsed character list of a name (the part of
the slug computation before edge trimming). -/
def slugChars (name : String) : List Char :=
  collapseRuns (name.data.map Char.toLower)

/-- The EDHREC slug exactly as `content.js` computes it:
`name.toLowerCase().replace(/[^a-z0-9]+/g, '-').replace(/^-|-$/g, '')`. -/
def edhrecSlug (name : String) : String :=
  String.mk (dropTrail (dropLead (slugChars name)))

/-- The slug as the specification words it: lowercase the name, replace
every run of non-alphanumeric characters with a single hyphen, and trim
all leading and trailing hyphens. -/
def specSlug (name : String) : String :=
  String.mk ((((slugChars name).dropWhile (· == '-')).reverse.dropWhile (· == '-')).reverse)

/-! ### Remote data model and price selection (content.js lines 5-67) -/

/-- One printing record from the catalog search response: the three
price facets (decimal strings, possibly absent), the optional
`purchase_uris.tcgplayer` entry, and the printing's own catalog page
URL `scryfall_uri`. -/
structure Printing where
  usd : Option String
  usd_foil : Option String
  usd_etched : Option String
  tcgplayer : Option String
  scryfall_uri : String
deriving DecidableEq

/-- The resolved value cached per card name (content.js lines 55-60). -/
structure PriceResult where
  price : Option Rat
  purchaseUrl : Option String
  scryfallUrl : Option String
  edhrecUrl : String
deriving DecidableEq

/-- The process-wide price cache, keyed by exact card name.  The script
only ever stores (always-truthy) result objects, so presence of an
entry coincides with the JavaScript truthiness test on
`priceCache[cardName]`. -/
abbrev Cache := String → Option PriceResult

/-- The empty cache the process starts with. -/
def emptyCache : Cache := fun _ => none

/-- Outcome of one `fetch` of the search URL: rejected promise
(network unreachable), non-success HTTP status (`!response.ok`), or a
parsed body whose `data` array holds the printings. -/
inductive FetchResult
  | netError
  | httpError (status : Nat)
  | ok (printings : List Printing)

/-- Transport-level failures: the two outcomes that reach the `catch`
block of `getCardPrice`. -/
def isTransportError : FetchResult → Bool
  | .netError => true
  | .httpError _ => true
  | .ok _ => false

/-- URL paired with each price facet of a printing:
`card.purchase_uris?.tcgplayer || card.scryfall_uri`. -/
def facetUrl (c : Printing) : String :=
  match c.tcgplayer with
  | some s => if s = "" then c.scryfall_uri else s
  | none => c.scryfall_uri

/-- The `prices` array built for one printing: the three facets in
fixed order (base, foil, etched), each paired with the printing's
purchase URL. -/
def facets (c : Printing) : List (Option String × String) :=
  [(c.usd, facetUrl c), (c.usd_foil, facetUrl c), (c.usd_etched, facetUrl c)]

/-- Running state of the cheapest-price scan: `cheapestPrice` and
`cheapestUrl`. -/
abbrev SelState := Option Rat × Option String

/-- Body of the inner facet loop: `if (value) { const price =
parseFloat(value); if (!isNaN(price) && (cheapestPrice === null ||
price < cheapestPrice)) { ... } }`. -/
def scanStep (st : SelState) (f : Option String × String) : SelState :=
  match f.1 with
  | none => st
  | some v =>
    if v = "" then st
    else
      match parseFloat? v with
      | none => st
      | some p =>
        match st.1 with
        | none => (some p, some f.2)
        | some cur => if p < cur then (some p, some f.2) else st

/-- `if (!scryfallUrl) scryfallUrl = card.scryfall_uri`: keep the
first truthy catalog URL seen. -/
def pickScryfall (st : Option String) (c : Printing) : Option String :=
  match st with
  | none => some c.scryfall_uri
  | some s => if s = "" then some c.scryfall_uri else some s

/-- One iteration of the outer `for (const card of data.data)` loop:
update the catalog URL and fold the facet loop over this printing. -/
def printingStep (acc : SelState × Option String) (c : Printing) :
    SelState × Option String :=
  ((facets c).foldl scanStep acc.1, pickScryfall acc.2 c)

/-- The whole printing scan, from the initial `null` state. -/
def scanPrintings (ps : List Printing) : SelState × Option String :=
  ps.foldl printingStep ((none, none), none)

/-- The result object assembled at content.js lines 55-60. -/
def buildResult (name : String) (ps : List Printing) : PriceResult :=
  let s := scanPrintings ps
  { price := s.1.1
    purchaseUrl := s.1.2
    scryfallUrl := s.2
    edhrecUrl := "https://edhrec.com/cards/" ++ edhrecSlug name }

/-- Outcome of one `getCardPrice` call: the returned value, the cache
afterwards, the number of network requests issued, and whether
`console.error` (the diagnostic channel) was invoked. -/
structure ResolveOutcome where
  result : Option PriceResult
  cache : Cache
  calls : Nat
  logged : Bool

/-- `getCardPrice` (content.js lines 5-67): cache lookup, one search
request on a miss, fail-fast on transport errors (caught and logged)
and on an empty printing list (returned without caching), otherwise
build, cache and return the result. -/
def getCardPrice (api : String → FetchResult) (cache : Cache) (name : String) :
    ResolveOutcome :=
  match cache name with
  | some r => { result := some r, cache := cache, calls := 0, logged := false }
  | none =>
    match api name with
    | .netError => { result := none, cache := cache, calls := 1, logged := true }
    | .httpError _ => { result := none, cache := cache, calls := 1, logged := true }
    | .ok printings =>
      if printings.isEmpty then
        { result := none, cache := cache, calls := 1, logged := false }
      else
        let r := buildResult name printings
        { result := some r
          cache := fun n => if n = name then some r else cache n
          calls := 1
          logged := false }

/-! ### Name extraction and annotation (content.js lines 70-155) -/

/-- The three name-bearing attributes of an image node. -/
structure ImgAttrs where
  alt : Option String
  title : Option String
  dataName : Option String
deriving DecidableEq

/-- A DOM card element, as a record of exactly what the script reads:
the `.img-card` class test, the processed marker `data-price-added`,
the element's own image attributes (when it is an `IMG`), a nested
image's attributes, the text content of a `[class*="name"]` descendant
of the element and of its parent (`none` when no such element
matches), and whether the element has a parent. -/
structure CardElement where
  isImgCard : Bool
  priceAdded : Bool
  isImg : Bool
  alt : Option String
  title : Option String
  dataName : Option String
  nestedImg : Option ImgAttrs
  ownNameText : Option String
  parentNameText : Option String
  hasParent : Bool
deriving DecidableEq

/-- `img.alt || img.title || img.dataset.name`. -/
def imgName (alt title dataName : Option String) : Option String :=
  jsOr alt (jsOr title dataName)

/-- The reserved face-indicator labels filtered out at the end of
`getCardName`. -/
def invalidNames : List String := ["front", "back", "transform"]

/-- `getCardName` (content.js lines 70-100): element's own image
attributes, then a nested image's, then the trimmed text of a
name-classed descendant (of the element, else of its parent), followed
by the invalid-name filter.  `some ""` models the empty-string (falsy)
return values JavaScript can produce here. -/
def getCardName (e : CardElement) : Option String :=
  let n1 := if e.isImg then imgName e.alt e.title e.dataName else none
  let n2 :=
    if truthy n1 then n1
    else
      match e.nestedImg with
      | some img => imgName img.alt img.title img.dataName
      | none => n1
  let n3 :=
    if truthy n2 then n2
    else
      (match e.ownNameText with
       | some t => some t
       | none => e.parentNameText).map jsTrim
  match n3 with
  | none => none
  | some s =>
    if truthy (some s) && invalidNames.contains (lowerStr s) then none
    else some s

/-- Where the link cluster is inserted, if anywhere. -/
inductive InsertPlacement
  | noInsert
  | nextSibling
  | childOfElement
deriving DecidableEq

/-- JavaScript truthiness of `result?.price` once `result` is known to
be an object: a number is truthy unless it is `0`. -/
def jsPriceTruthy : Option Rat → Bool
  | none => false
  | some p => decide (p ≠ 0)

/-- Insertion decision of `addPriceToCard` (content.js lines 113 and
149-153): insert only when `result?.price` is truthy, as the next
sibling when the element has a parent, else as a child. -/
def insertPlacement (hasParent : Bool) (result : Option PriceResult) :
    InsertPlacement :=
  match result with
  | none => .noInsert
  | some r =>
    if jsPriceTruthy r.price then
      if hasParent then .nextSibling else .childOfElement
    else .noInsert

/-- The price link's text when a cluster is inserted:
`` `$${result.price.toFixed(2)}` ``. -/
def insertLabel (result : Option PriceResult) : Option String :=
  match result with
  | none => none
  | some r =>
    if jsPriceTruthy r.price then r.price.map (fun p => "$" ++ toFixed2 p)
    else none

/-- Observable outcome of one `addPriceToCard` call: the element
afterwards (its processed marker), the cache, network-call and
resolver-invocation counts, the diagnostic flag, the resolver's
returned value, and what was inserted where. -/
structure AddOutcome where
  element : CardElement
  cache : Cache
  calls : Nat
  resolverCalls : Nat
  logged : Bool
  result : Option PriceResult
  placement : InsertPlacement
  label : Option String

/-- `addPriceToCard` (content.js lines 103-155): bail out if already
marked, set the processed marker, extract the name, bail out on a
falsy name, resolve the price, and insert the link cluster when the
resolved price is truthy. -/
def addPriceToCard (api : String → FetchResult) (cache : Cache) (e : CardElement) :
    AddOutcome :=
  if e.priceAdded then
    { element := e, cache := cache, calls := 0, resolverCalls := 0,
      logged := false, result := none, placement := .noInsert, label := none }
  else
    match getCardName { e with priceAdded := true } with
    | none =>
      { element := { e with priceAdded := true }, cache := cache, calls := 0,
        resolverCalls := 0, logged := false, result := none,
        placement := .noInsert, label := none }
    | some s =>
      if s = "" then
        { element := { e with priceAdded := true }, cache := cache, calls := 0,
          resolverCalls := 0, logged := false, result := none,
          placement := .noInsert, label := none }
      else
        { element := { e with priceAdded := true }
          cache := (getCardPrice api cache s).cache
          calls := (getCardPrice api cache s).calls
          resolverCalls := 1
          logged := (getCardPrice api cache s).logged
          result := (getCardPrice api cache s).result
          placement := insertPlacement e.hasParent (getCardPrice api cache s).result
          label := insertLabel (getCardPrice api cache s).result }

/-- The scan's selection predicate: `.img-card:not([data-price-added])`
(content.js line 178). -/
def eligible (e : CardElement) : Bool := e.isImgCard && !e.priceAdded

/-! ### Mutation debounce (content.js lines 183-186) -/

/-- The debounce window of the mutation coordinator. -/
def debounceMs : Nat := 300

/-- Scan firing times produced by the MutationObserver callback
(`clearTimeout` then `setTimeout(processCards, 300)`), given the
increasing arrival times of the mutation notifications: a timer set at
time `t` fires at `t + 300` unless a further notification arrives
strictly before that. -/
def scanTimes : List Nat → List Nat
  | [] => []
  | [t] => [t + debounceMs]
  | t :: t2 :: rest =>
    if t2 < t + debounceMs then scanTimes (t2 :: rest)
    else (t + debounceMs) :: scanTimes (t2 :: rest)

/-- The burst condition of the debounce claim: each notification in
the list arrives strictly less than the debounce window after the
previous one. -/
def tightBurst : List Nat → Bool
  | [] => true
  | [_] => true
  | a :: b :: r => decide (b < a + debounceMs) && tightBurst (b :: r)

/-! ### Specification-side selection definitions (for claim C4) -/

/-- A facet's contribution to the parseable-price list: its parsed
value paired with its purchase URL, or nothing when the facet is
absent, empty, or non-numeric. -/
def parseFacet (f : Option String × String) : Option (Rat × String) :=
  match f.1 with
  | none => none
  | some v =>
    if v = "" then none
    else (parseFloat? v).map (fun p => (p, f.2))

/-- All parseable price facets of a response, in response order with
the facets of each printing in fixed (base, foil, etched) order. -/
def parsedFacets (ps : List Printing) : List (Rat × String) :=
  (ps.flatMap facets).filterMap parseFacet

/-- First-seen-wins minimum selection on the parsed facet list, as an
accumulator step. -/
def selectStep (st : Option (Rat × String)) (x : Rat × String) :
    Option (Rat × String) :=
  match st with
  | none => some x
  | some y => if x.1 < y.1 then some x else some y

/-- First-seen-wins minimum of a list of (price, URL) pairs. -/
def firstMinPair : List (Rat × String) → Option (Rat × String)
  | [] => none
  | x :: xs =>
    match firstMinPair xs with
    | none => some x
    | some y => if y.1 < x.1 then some y else some x

/-- View of an optional selected pair as the scan's two-field state. -/
def toSel : Option (Rat × String) → SelState
  | none => (none, none)
  | some x => (some x.1, some x.2)

/-! ### Concrete fixtures used by witnesses and counterexamples -/

/-- An API that always fails at the transport level. -/
def apiNet : String → FetchResult := fun _ => .netError

/-- An API that always answers successfully with zero printings. -/
def apiEmpty : String → FetchResult := fun _ => .ok []

/-- A printing whose only price facet is the string "0". -/
def pZero : Printing :=
  { usd := some "0", usd_foil := none, usd_etched := none,
    tcgplayer := some "tcg-zero", scryfall_uri := "scry-zero" }

/-- A printing with no usable price facets. -/
def pNoPrice : Printing :=
  { usd := none, usd_foil := some "", usd_etched := some "abc",
    tcgplayer := none, scryfall_uri := "scry-nop" }

/-- First of two printings that tie at base price 5.00. -/
def pFive1 : Printing :=
  { usd := some "5.00", usd_foil := none, usd_etched := none,
    tcgplayer := some "tcg-five-1", scryfall_uri := "scry-five-1" }

/-- Second of two printings that tie at base price 5.00. -/
def pFive2 : Printing :=
  { usd := some "5.00", usd_foil := none, usd_etched := none,
    tcgplayer := some "tcg-five-2", scryfall_uri := "scry-five-2" }

/-- A printing priced 12.50 base and 9.99 foil. -/
def pFoilCheaper : Printing :=
  { usd := some "12.50", usd_foil := some "9.99", usd_etched := none,
    tcgplayer := some "tcg-foil", scryfall_uri := "scry-foil" }

/-- An API answering every name with the single zero-priced printing. -/
def apiZero : String → FetchResult := fun _ => .ok [pZero]

/-- A card element from which no name is extractable: not an image, no
nested image, no name-classed descendant anywhere. -/
def eNoName : CardElement :=
  { isImgCard := true, priceAdded := false, isImg := false,
    alt := none, title := none, dataName := none, nestedImg := none,
    ownNameText := none, parentNameText := none, hasParent := true }

/-- An image card element named "Zero Card". -/
def eZero : CardElement :=
  { isImgCard := true, priceAdded := false, isImg := true,
    alt := some "Zero Card", title := none, dataName := none, nestedImg := none,
    ownNameText := none, parentNameText := none, hasParent := true }

/-- A stored result used to exercise the cache-hit path. -/
def rHit : PriceResult :=
  { price := some 2, purchaseUrl := some "tcg-hit",
    scryfallUrl := some "scry-hit", edhrecUrl := "https://edhrec.com/cards/hit" }

/-- A cache holding `rHit` under the name "Hit". -/
def cacheHit : Cache := fun n => if n = "Hit" then some rHit else none

/-- Ten mutation notification times spaced 50 units apart. -/
def burst10 : List Nat := [0, 50, 100, 150, 200, 250, 300, 350, 400, 450]

/-- An API answering every name with the single price-less printing. -/
def apiNoPrice : String → FetchResult := fun _ => .ok [pNoPrice]

/-- An API answering every name with the 12.50/9.99 printing. -/
def apiFoil : String → FetchResult := fun _ => .ok [pFoilCheaper]

/-- An image card element named "Foil Card". -/
def eFoil : CardElement :=
  { isImgCard := true, priceAdded := false, isImg := true,
    alt := some "Foil Card", title := none, dataName := none, nestedImg := none,
    ownNameText := none, parentNameText := none, hasParent := true }

/-! ## Helper lemmas about the slug computation -/

/-- No two adjacent characters of the list are both hyphens. -/
def NoAdjHyphen (l : List Char) : Prop :=
  l.Chain' (fun a b => ¬(a = '-' ∧ b = '-'))

theorem isSlugChar_ne_hyphen {c : Char} (h : isSlugChar c = true) : c ≠ '-' := by
  intro hc
  subst hc
  simp [isSlugChar] at h

theorem collapseGo_true_head :
    ∀ (cs : List Char) (c : Char) (r : List Char),
      collapseGo true cs = c :: r → isSlugChar c = true := by
  intro cs
  induction cs with
  | nil => intro c r h; simp [collapseGo] at h
  | cons c0 cs ih =>
    intro c r h
    by_cases h0 : isSlugChar c0
    · rw [collapseGo, if_pos h0] at h
      cases h
      exact h0
    · rw [collapseGo, if_neg h0, if_pos rfl] at h
      exact ih c r h

theorem noAdjHyphen_collapseGo : ∀ (cs : List Char) (b : Bool),
    NoAdjHyphen (collapseGo b cs) := by
  intro cs
  induction cs with
  | nil => intro b; simp [collapseGo, NoAdjHyphen]
  | cons c0 cs ih =>
    intro b
    by_cases h0 : isSlugChar c0
    · rw [collapseGo, if_pos h0]
      refine List.chain'_cons'.mpr ⟨?_, ih false⟩
      intro y _ hab
      exact isSlugChar_ne_hyphen h0 hab.1
    · cases b with
      | true =>
        rw [collapseGo, if_neg h0, if_pos rfl]
        exact ih true
      | false =>
        rw [collapseGo, if_neg h0]
        simp only [Bool.false_eq_true, if_false]
        refine List.chain'_cons'.mpr ⟨?_, ih true⟩
        intro y hy hab
        cases hhd : collapseGo true cs with
        | nil => rw [hhd] at hy; simp at hy
        | cons z zs =>
          rw [hhd] at hy
          simp only [List.head?_cons, Option.mem_def, Option.some.injEq] at hy
          subst hy
          exact isSlugChar_ne_hyphen (collapseGo_true_head cs z zs hhd) hab.2

theorem noAdjHyphen_reverse {l : List Char} (h : NoAdjHyphen l) :
    NoAdjHyphen l.reverse := by
  rw [NoAdjHyphen, List.chain'_reverse]
  exact h.imp (fun a b hab hba => hab ⟨hba.2, hba.1⟩)

theorem dropLead_eq_dropWhile {l : List Char} (h : NoAdjHyphen l) :
    dropLead l = l.dropWhile (· == '-') := by
  cases l with
  | nil => rfl
  | cons c r =>
    by_cases hc : c = '-'
    · subst hc
      rw [dropLead, if_pos rfl, List.dropWhile_cons]
      simp only [beq_self_eq_true, if_true]
      cases r with
      | nil => rfl
      | cons c2 r2 =>
        have h2 : ¬('-' = '-' ∧ c2 = '-') := (List.chain'_cons.mp h).1
        have hc2 : ¬(c2 = '-') := fun he => h2 ⟨rfl, he⟩
        rw [List.dropWhile_cons, if_neg (by simpa using hc2)]
    · rw [dropLead, if_neg hc, List.dropWhile_cons, if_neg (by simpa using hc)]

theorem noAdjHyphen_dropLead {l : List Char} (h : NoAdjHyphen l) :
    NoAdjHyphen (dropLead l) := by
  cases l with
  | nil => exact h
  | cons c r =>
    rw [dropLead]
    by_cases hc : c = '-'
    · rw [if_pos hc]
      exact h.tail
    · rw [if_neg hc]
      exact h

theorem dropTrail_eq_of_rev_nil {l : List Char} (hr : l.reverse = []) :
    dropTrail l = l := by
  rw [dropTrail, hr]

theorem dropTrail_eq_of_rev_cons {l : List Char} {c : Char} {r : List Char}
    (hr : l.reverse = c :: r) :
    dropTrail l = if c = '-' then r.reverse else l := by
  rw [dropTrail, hr]

theorem dropTrail_eq_dropWhile {l : List Char} (h : NoAdjHyphen l) :
    dropTrail l = (l.reverse.dropWhile (· == '-')).reverse := by
  have hrev : NoAdjHyphen l.reverse := noAdjHyphen_reverse h
  cases hr : l.reverse with
  | nil =>
    have hl : l = [] := by simpa using congrArg List.reverse hr
    subst hl
    rfl
  | cons c r =>
    rw [hr] at hrev
    rw [dropTrail_eq_of_rev_cons hr]
    by_cases hc : c = '-'
    · subst hc
      rw [if_pos rfl, List.dropWhile_cons]
      simp only [beq_self_eq_true, if_true]
      cases r with
      | nil => rfl
      | cons c2 r2 =>
        have h2 : ¬('-' = '-' ∧ c2 = '-') := (List.chain'_cons.mp hrev).1
        have hc2 : ¬(c2 = '-') := fun he => h2 ⟨rfl, he⟩
        rw [List.dropWhile_cons, if_neg (by simpa using hc2)]
    · rw [if_neg hc, List.dropWhile_cons, if_neg (by simpa using hc)]
      calc l = l.reverse.reverse := (List.reverse_reverse l).symm
        _ = (c :: r).reverse := by rw [hr]

/-! ## Helper lemmas about the cheapest-price selection -/

theorem scanStep_toSel (st : Option (Rat × String)) (f : Option String × String) :
    scanStep (toSel st) f =
      toSel (match parseFacet f with
             | none => st
             | some x => selectStep st x) := by
  obtain ⟨v?, u⟩ := f
  cases v? with
  | none => cases st <;> rfl
  | some v =>
    by_cases hv : v = ""
    · subst hv
      cases st <;> rfl
    · cases hp : parseFloat? v with
      | none => cases st <;> simp [scanStep, parseFacet, hv, hp, toSel]
      | some p =>
        cases st with
        | none => simp [scanStep, parseFacet, hv, hp, toSel, selectStep]
        | some y =>
          simp only [scanStep, parseFacet, hv, hp, toSel, selectStep, if_neg]
          by_cases hlt : p < y.1 <;> simp [hlt, toSel]

theorem foldl_scanStep_toSel :
    ∀ (l : List (Option String × String)) (st : Option (Rat × String)),
      l.foldl scanStep (toSel st) =
        toSel ((l.filterMap parseFacet).foldl selectStep st) := by
  intro l
  induction l with
  | nil => intro st; rfl
  | cons f l ih =>
    intro st
    rw [List.foldl_cons, scanStep_toSel, List.filterMap_cons]
    cases hf : parseFacet f with
    | none => exact ih st
    | some x => rw [List.foldl_cons]; exact ih (selectStep st x)

theorem foldl_selectStep_some :
    ∀ (l : List (Rat × String)) (a : Rat × String),
      l.foldl selectStep (some a) =
        some (match firstMinPair l with
              | none => a
              | some y => if y.1 < a.1 then y else a) := by
  intro l
  induction l with
  | nil => intro a; rfl
  | cons x xs ih =>
    intro a
    rw [List.foldl_cons]
    have hsel : selectStep (some a) x = some (if x.1 < a.1 then x else a) := by
      rw [selectStep]
      split <;> rfl
    rw [hsel, ih]
    cases hm : firstMinPair xs with
    | none =>
      have hx : firstMinPair (x :: xs) = some x := by
        simp only [firstMinPair, hm]
      rw [hx]
    | some y =>
      have hx : firstMinPair (x :: xs) = if y.1 < x.1 then some y else some x := by
        simp only [firstMinPair, hm]
      rw [hx]
      by_cases h1 : y.1 < x.1
      · rw [if_pos h1]
        show some (if y.1 < (if x.1 < a.1 then x else a).1 then y
              else if x.1 < a.1 then x else a) =
            some (if y.1 < a.1 then y else a)
        split_ifs <;> first | rfl | (exfalso; linarith)
      · rw [if_neg h1]
        show some (if y.1 < (if x.1 < a.1 then x else a).1 then y
              else if x.1 < a.1 then x else a) =
            some (if x.1 < a.1 then x else a)
        split_ifs <;> first | rfl | (exfalso; linarith)

theorem foldl_selectStep_none (l : List (Rat × String)) :
    l.foldl selectStep none = firstMinPair l := by
  cases l with
  | nil => rfl
  | cons x xs =>
    rw [List.foldl_cons]
    have h0 : selectStep none x = some x := rfl
    rw [h0, foldl_selectStep_some]
    cases hm : firstMinPair xs with
    | none =>
      have hx : firstMinPair (x :: xs) = some x := by
        simp only [firstMinPair, hm]
      rw [hx]
    | some y =>
      have hx : firstMinPair (x :: xs) = if y.1 < x.1 then some y else some x := by
        simp only [firstMinPair, hm]
      rw [hx]
      show some (if y.1 < x.1 then y else x) = if y.1 < x.1 then some y else some x
      by_cases h1 : y.1 < x.1
      · rw [if_pos h1, if_pos h1]
      · rw [if_neg h1, if_neg h1]

theorem firstMinPair_eq_none_iff (l : List (Rat × String)) :
    firstMinPair l = none ↔ l = [] := by
  cases l with
  | nil => simp [firstMinPair]
  | cons x xs =>
    simp only [firstMinPair]
    cases hm : firstMinPair xs with
    | none => simp
    | some y => by_cases h1 : y.1 < x.1 <;> simp [h1]

theorem firstMinPair_mem :
    ∀ {l : List (Rat × String)} {b : Rat × String},
      firstMinPair l = some b → b ∈ l := by
  intro l
  induction l with
  | nil => intro b h; simp [firstMinPair] at h
  | cons x xs ih =>
    intro b h
    simp only [firstMinPair] at h
    cases hm : firstMinPair xs with
    | none =>
      rw [hm] at h
      have h' : some x = some b := h
      cases h'
      exact List.mem_cons_self x xs
    | some y =>
      rw [hm] at h
      have h' : (if y.1 < x.1 then some y else some x) = some b := h
      by_cases hlt : y.1 < x.1
      · rw [if_pos hlt] at h'
        cases h'
        exact List.mem_cons_of_mem x (ih hm)
      · rw [if_neg hlt] at h'
        cases h'
        exact List.mem_cons_self x xs

theorem firstMinPair_le :
    ∀ {l : List (Rat × String)} {b : Rat × String},
      firstMinPair l = some b → ∀ x ∈ l, b.1 ≤ x.1 := by
  intro l
  induction l with
  | nil => intro b h; simp [firstMinPair] at h
  | cons x xs ih =>
    intro b h z hz
    simp only [firstMinPair] at h
    cases hm : firstMinPair xs with
    | none =>
      rw [hm] at h
      have h' : some x = some b := h
      cases h'
      have hnil : xs = [] := (firstMinPair_eq_none_iff xs).mp hm
      subst hnil
      simp only [List.mem_singleton] at hz
      subst hz
      exact le_refl _
    | some y =>
      rw [hm] at h
      have h' : (if y.1 < x.1 then some y else some x) = some b := h
      rcases List.mem_cons.mp hz with hzx | hzxs
      · subst hzx
        by_cases hlt : y.1 < z.1
        · rw [if_pos hlt] at h'
          cases h'
          exact le_of_lt hlt
        · rw [if_neg hlt] at h'
          cases h'
          exact le_refl _
      · by_cases hlt : y.1 < x.1
        · rw [if_pos hlt] at h'
          cases h'
          exact ih hm z hzxs
        · rw [if_neg hlt] at h'
          cases h'
          exact le_trans (le_of_not_lt hlt) (ih hm z hzxs)

theorem firstMinPair_find? :
    ∀ {l : List (Rat × String)} {b : Rat × String},
      firstMinPair l = some b →
        l.find? (fun x => decide (x.1 = b.1)) = some b := by
  intro l
  induction l with
  | nil => intro b h; simp [firstMinPair] at h
  | cons x xs ih =>
    intro b h
    simp only [firstMinPair] at h
    cases hm : firstMinPair xs with
    | none =>
      rw [hm] at h
      have h' : some x = some b := h
      cases h'
      rw [List.find?_cons_of_pos _ (by simp)]
    | some y =>
      rw [hm] at h
      have h' : (if y.1 < x.1 then some y else some x) = some b := h
      by_cases hlt : y.1 < x.1
      · rw [if_pos hlt] at h'
        cases h'
        rw [List.find?_cons_of_neg _ (by simp; exact ne_of_gt hlt), ih hm]
      · rw [if_neg hlt] at h'
        cases h'
        rw [List.find?_cons_of_pos _ (by simp)]

theorem foldl_printingStep_fst :
    ∀ (ps : List Printing) (acc : SelState × Option String),
      (ps.foldl printingStep acc).1 =
        ps.foldl (fun st c => (facets c).foldl scanStep st) acc.1 := by
  intro ps
  induction ps with
  | nil => intro acc; rfl
  | cons c ps ih =>
    intro acc
    rw [List.foldl_cons, List.foldl_cons, ih]
    rfl

theorem foldl_printingStep_snd :
    ∀ (ps : List Printing) (acc : SelState × Option String),
      (ps.foldl printingStep acc).2 = ps.foldl pickScryfall acc.2 := by
  intro ps
  induction ps with
  | nil => intro acc; rfl
  | cons c ps ih =>
    intro acc
    rw [List.foldl_cons, List.foldl_cons, ih]
    rfl

theorem foldl_scanStep_flat :
    ∀ (ps : List Printing) (st : SelState),
      ps.foldl (fun st c => (facets c).foldl scanStep st) st =
        (ps.flatMap facets).foldl scanStep st := by
  intro ps
  induction ps with
  | nil => intro st; rfl
  | cons c ps ih =>
    intro st
    rw [List.foldl_cons, List.flatMap_cons, List.foldl_append, ih]

theorem scanPrintings_sel (ps : List Printing) :
    (scanPrintings ps).1 = toSel (firstMinPair (parsedFacets ps)) := by
  rw [scanPrintings, foldl_printingStep_fst, foldl_scanStep_flat]
  have h0 : ((none, none) : SelState) = toSel none := rfl
  rw [h0, foldl_scanStep_toSel, foldl_selectStep_none, parsedFacets]

theorem scanPrintings_scry (ps : List Printing) :
    (scanPrintings ps).2 = ps.foldl pickScryfall none := by
  rw [scanPrintings, foldl_printingStep_snd]

theorem foldl_pickScryfall_isSome_of_some :
    ∀ (ps : List Printing) (s : String),
      (ps.foldl pickScryfall (some s)).isSome = true := by
  intro ps
  induction ps with
  | nil => intro s; rfl
  | cons c ps ih =>
    intro s
    rw [List.foldl_cons, pickScryfall]
    by_cases hs : s = ""
    · rw [if_pos hs]
      exact ih _
    · rw [if_neg hs]
      exact ih _

theorem foldl_pickScryfall_isSome (ps : List Printing) (h : ps ≠ []) :
    (ps.foldl pickScryfall none).isSome = true := by
  cases ps with
  | nil => exact absurd rfl h
  | cons c ps =>
    rw [List.foldl_cons]
    exact foldl_pickScryfall_isSome_of_some ps _

theorem buildResult_price (name : String) (ps : List Printing) :
    (buildResult name ps).price = (toSel (firstMinPair (parsedFacets ps))).1 := by
  rw [show (buildResult name ps).price = (scanPrintings ps).1.1 from rfl,
    scanPrintings_sel]

theorem buildResult_purchaseUrl (name : String) (ps : List Printing) :
    (buildResult name ps).purchaseUrl = (toSel (firstMinPair (parsedFacets ps))).2 := by
  rw [show (buildResult name ps).purchaseUrl = (scanPrintings ps).1.2 from rfl,
    scanPrintings_sel]

theorem buildResult_scryfallUrl (name : String) (ps : List Printing) :
    (buildResult name ps).scryfallUrl = ps.foldl pickScryfall none := by
  rw [show (buildResult name ps).scryfallUrl = (scanPrintings ps).2 from rfl,
    scanPrintings_scry]

/-! ## Equation lemmas for the resolver and the annotator -/

theorem getCardPrice_hit {api : String → FetchResult} {cache : Cache}
    {name : String} {r : PriceResult} (h : cache name = some r) :
    getCardPrice api cache name =
      { result := some r, cache := cache, calls := 0, logged := false } := by
  unfold getCardPrice
  rw [h]

theorem getCardPrice_netError {api : String → FetchResult} {cache : Cache}
    {name : String} (h : cache name = none) (ha : api name = .netError) :
    getCardPrice api cache name =
      { result := none, cache := cache, calls := 1, logged := true } := by
  unfold getCardPrice
  rw [h, ha]

theorem getCardPrice_httpError {api : String → FetchResult} {cache : Cache}
    {name : String} {s : Nat} (h : cache name = none) (ha : api name = .httpError s) :
    getCardPrice api cache name =
      { result := none, cache := cache, calls := 1, logged := true } := by
  unfold getCardPrice
  rw [h, ha]

theorem getCardPrice_emptyData {api : String → FetchResult} {cache : Cache}
    {name : String} (h : cache name = none) (ha : api name = .ok []) :
    getCardPrice api cache name =
      { result := none, cache := cache, calls := 1, logged := false } := by
  unfold getCardPrice
  rw [h, ha]
  rfl

theorem getCardPrice_okData {api : String → FetchResult} {cache : Cache}
    {name : String} {ps : List Printing} (h : cache name = none)
    (ha : api name = .ok ps) (hne : ps ≠ []) :
    getCardPrice api cache name =
      { result := some (buildResult name ps)
        cache := fun n => if n = name then some (buildResult name ps) else cache n
        calls := 1
        logged := false } := by
  unfold getCardPrice
  rw [h, ha]
  show (if ps.isEmpty = true then
          ({ result := none, cache := cache, calls := 1, logged := false } : ResolveOutcome)
        else
          { result := some (buildResult name ps)
            cache := fun n => if n = name then some (buildResult name ps) else cache n
            calls := 1
            logged := false }) = _
  rw [if_neg (by simpa [List.isEmpty_iff] using hne)]

theorem getCardName_marker (e : CardElement) (b : Bool) :
    getCardName { e with priceAdded := b } = getCardName e := rfl

theorem addPriceToCard_marked {api : String → FetchResult} {cache : Cache}
    {e : CardElement} (h : e.priceAdded = true) :
    addPriceToCard api cache e =
      { element := e, cache := cache, calls := 0, resolverCalls := 0,
        logged := false, result := none, placement := .noInsert, label := none } := by
  unfold addPriceToCard
  rw [if_pos h]

theorem addPriceToCard_noName {api : String → FetchResult} {cache : Cache}
    {e : CardElement} (h1 : e.priceAdded = false)
    (h2 : truthy (getCardName e) = false) :
    addPriceToCard api cache e =
      { element := { e with priceAdded := true }, cache := cache, calls := 0,
        resolverCalls := 0, logged := false, result := none,
        placement := .noInsert, label := none } := by
  unfold addPriceToCard
  rw [if_neg (by simp [h1])]
  have h2' : truthy (getCardName { e with priceAdded := true }) = false := by
    rw [getCardName_marker]
    exact h2
  cases hn : getCardName { e with priceAdded := true } with
  | none => rfl
  | some s =>
    rw [hn] at h2'
    have hs : s = "" := by simpa [truthy] using h2'
    subst hs
    rfl

theorem addPriceToCard_named {api : String → FetchResult} {cache : Cache}
    {e : CardElement} {s : String} (h1 : e.priceAdded = false)
    (h2 : getCardName e = some s) (h3 : s ≠ "") :
    addPriceToCard api cache e =
      { element := { e with priceAdded := true }
        cache := (getCardPrice api cache s).cache
        calls := (getCardPrice api cache s).calls
        resolverCalls := 1
        logged := (getCardPrice api cache s).logged
        result := (getCardPrice api cache s).result
        placement := insertPlacement e.hasParent (getCardPrice api cache s).result
        label := insertLabel (getCardPrice api cache s).result } := by
  unfold addPriceToCard
  rw [if_neg (by simp [h1])]
  have h2' : getCardName { e with priceAdded := true } = some s := by
    rw [getCardName_marker]
    exact h2
  rw [h2']
  show (if s = "" then
          ({ element := { e with priceAdded := true }, cache := cache, calls := 0,
             resolverCalls := 0, logged := false, result := none,
             placement := .noInsert, label := none } : AddOutcome)
        else
          { element := { e with priceAdded := true }
            cache := (getCardPrice api cache s).cache
            calls := (getCardPrice api cache s).calls
            resolverCalls := 1
            logged := (getCardPrice api cache s).logged
            result := (getCardPrice api cache s).result
            placement := insertPlacement e.hasParent (getCardPrice api cache s).result
            label := insertLabel (getCardPrice api cache s).result }) = _
  rw [if_neg h3]

/-! ## Claim C1 -/

/-- C1 counterexample: the claim states that an element whose name
extraction yields null never gets its processed marker set, but for
the concrete element `eNoName` (extraction yields null) the marker is
set to true by processing. -/
theorem c1_noname_counterexample :
    getCardName eNoName = none ∧
    (addPriceToCard apiNet emptyCache eNoName).element.priceAdded = true := by
  exact ⟨by decide, by decide⟩

/-- C1 (amended): for every unprocessed card element whose name
extraction yields a falsy value, processing never invokes the price
resolver, performs no network call, leaves the cache unchanged and
inserts nothing, but it DOES set the element's processed marker, so
the element is excluded from every subsequent scan's selection rather
than re-attempted. -/
theorem c1_noname_no_resolver_but_marked
    (api : String → FetchResult) (cache : Cache) (e : CardElement)
    (h1 : e.priceAdded = false) (h2 : truthy (getCardName e) = false) :
    (addPriceToCard api cache e).resolverCalls = 0 ∧
    (addPriceToCard api cache e).calls = 0 ∧
    (addPriceToCard api cache e).cache = cache ∧
    (addPriceToCard api cache e).placement = .noInsert ∧
    (addPriceToCard api cache e).element.priceAdded = true ∧
    eligible (addPriceToCard api cache e).element = false := by
  rw [addPriceToCard_noName h1 h2]
  exact ⟨rfl, rfl, rfl, rfl, rfl, by simp [eligible]⟩

/-- C1 witness: the amended claim evaluated on the concrete nameless
element `eNoName`. -/
theorem c1_noname_no_resolver_but_marked_witness :
    (addPriceToCard apiNet emptyCache eNoName).resolverCalls = 0 ∧
    (addPriceToCard apiNet emptyCache eNoName).calls = 0 ∧
    (addPriceToCard apiNet emptyCache eNoName).cache = emptyCache ∧
    (addPriceToCard apiNet emptyCache eNoName).placement = .noInsert ∧
    (addPriceToCard apiNet emptyCache eNoName).element.priceAdded = true ∧
    eligible (addPriceToCard apiNet emptyCache eNoName).element = false :=
  c1_noname_no_resolver_but_marked apiNet emptyCache eNoName (by decide) (by decide)

/-! ## Claim C2 -/

/-- C2 counterexample: the claim states that a successful response
with zero printings stores a negative cache entry so that a second
resolve for the same name makes no further network call; in fact, for
the concrete name "Opt" against an always-empty API, the cache is left
unpopulated and the second call performs one network call again. -/
theorem c2_empty_counterexample :
    (getCardPrice apiEmpty emptyCache "Opt").result = none ∧
    (getCardPrice apiEmpty emptyCache "Opt").cache "Opt" = none ∧
    (getCardPrice apiEmpty ((getCardPrice apiEmpty emptyCache "Opt").cache) "Opt").calls = 1 := by
  exact ⟨by decide, by decide, by decide⟩

/-- C2 (amended): for every name on which the remote API responds
successfully but with zero printings, `resolve` returns null and
leaves the cache unpopulated for that name (no negative entry), so a
second resolve call for the same name performs another network call. -/
theorem c2_empty_returns_null_uncached
    (api : String → FetchResult) (cache : Cache) (name : String)
    (hmiss : cache name = none) (hempty : api name = .ok []) :
    (getCardPrice api cache name).result = none ∧
    (getCardPrice api cache name).cache = cache ∧
    (getCardPrice api cache name).calls = 1 ∧
    (getCardPrice api ((getCardPrice api cache name).cache) name).calls = 1 := by
  rw [getCardPrice_emptyData hmiss hempty]
  refine ⟨rfl, rfl, rfl, ?_⟩
  rw [show ({ result := none, cache := cache, calls := 1, logged := false } :
        ResolveOutcome).cache = cache from rfl,
    getCardPrice_emptyData hmiss hempty]

/-- C2 witness: the amended claim evaluated on the concrete name
"Zero Data" against an always-empty API. -/
theorem c2_empty_returns_null_uncached_witness :
    (getCardPrice apiEmpty emptyCache "Zero Data").result = none ∧
    (getCardPrice apiEmpty emptyCache "Zero Data").cache = emptyCache ∧
    (getCardPrice apiEmpty emptyCache "Zero Data").calls = 1 ∧
    (getCardPrice apiEmpty ((getCardPrice apiEmpty emptyCache "Zero Data").cache) "Zero Data").calls = 1 :=
  c2_empty_returns_null_uncached apiEmpty emptyCache "Zero Data" rfl rfl

/-! ## Claim C3 -/

/-- C3: for every resolve call that fails with a transport error
(network unreachable or non-success HTTP status), the error is logged
to the diagnostic channel (`console.error`), the call returns null,
exactly one network attempt was made, and the cache is left exactly as
it was, so the lookup is naturally retried by a future scan. -/
theorem c3_transport_error_logged_uncached
    (api : String → FetchResult) (cache : Cache) (name : String)
    (hmiss : cache name = none) (herr : isTransportError (api name) = true) :
    (getCardPrice api cache name).result = none ∧
    (getCardPrice api cache name).cache = cache ∧
    (getCardPrice api cache name).logged = true ∧
    (getCardPrice api cache name).calls = 1 := by
  cases hapi : api name with
  | netError =>
    rw [getCardPrice_netError hmiss hapi]
    exact ⟨rfl, rfl, rfl, rfl⟩
  | httpError s =>
    rw [getCardPrice_httpError hmiss hapi]
    exact ⟨rfl, rfl, rfl, rfl⟩
  | ok ps =>
    rw [hapi] at herr
    simp [isTransportError] at herr

/-- C3 witness: the claim evaluated on the concrete name "Bolt"
against an API whose transport always fails. -/
theorem c3_transport_error_logged_uncached_witness :
    (getCardPrice apiNet emptyCache "Bolt").result = none ∧
    (getCardPrice apiNet emptyCache "Bolt").cache = emptyCache ∧
    (getCardPrice apiNet emptyCache "Bolt").logged = true ∧
    (getCardPrice apiNet emptyCache "Bolt").calls = 1 :=
  c3_transport_error_logged_uncached apiNet emptyCache "Bolt" rfl rfl

/-! ## Claim C4 -/

/-- C4: for every successful response with at least one printing, the
resolved price is the minimum over all printings (in response order)
of all parseable price facets taken in fixed (base, foil, etched)
order — absent, empty and non-numeric facets are skipped and never
abort the resolution — and the paired purchase URL is the one of the
FIRST facet attaining that minimum (strict `<` comparison, so ties
keep the first-encountered variant), where each facet's URL is the
printing's own purchase URL or its reference URL as fallback. -/
theorem c4_cheapest_selection (name : String) (ps : List Printing) :
    ((buildResult name ps).price = none ↔ parsedFacets ps = []) ∧
    (∀ m : Rat, (buildResult name ps).price = some m →
      m ∈ (parsedFacets ps).map Prod.fst ∧
      (∀ v ∈ (parsedFacets ps).map Prod.fst, m ≤ v) ∧
      (buildResult name ps).purchaseUrl =
        ((parsedFacets ps).find? (fun x => decide (x.1 = m))).map Prod.snd) := by
  constructor
  · rw [buildResult_price]
    cases hm : firstMinPair (parsedFacets ps) with
    | none =>
      simp [toSel, (firstMinPair_eq_none_iff _).mp hm]
    | some b =>
      have hne : parsedFacets ps ≠ [] := by
        intro h0
        rw [(firstMinPair_eq_none_iff _).mpr h0] at hm
        exact Option.noConfusion hm
      simp [toSel, hne]
  · intro m hm'
    rw [buildResult_price] at hm'
    cases hm : firstMinPair (parsedFacets ps) with
    | none =>
      rw [hm] at hm'
      simp [toSel] at hm'
    | some b =>
      rw [hm] at hm'
      have hb : b.1 = m := by simpa [toSel] using hm'
      subst hb
      refine ⟨List.mem_map_of_mem Prod.fst (firstMinPair_mem hm), ?_, ?_⟩
      · intro v hv
        obtain ⟨x, hx, hxv⟩ := List.mem_map.mp hv
        subst hxv
        exact firstMinPair_le hm x hx
      · rw [buildResult_purchaseUrl, hm, firstMinPair_find? hm]
        rfl

/-- C4 witness: for the tie of two printings both at base price 5.00,
the selected purchase URL is the first-encountered one; and for the
12.50-base / 9.99-foil printing the resolved price is 9.99 with the
foil variant's URL. -/
theorem c4_cheapest_selection_witness :
    (buildResult "Tie Card" [pFive1, pFive2]).price = some 5 ∧
    (buildResult "Tie Card" [pFive1, pFive2]).purchaseUrl =
      ((parsedFacets [pFive1, pFive2]).find? (fun x => decide (x.1 = 5))).map Prod.snd ∧
    (buildResult "Tie Card" [pFive1, pFive2]).purchaseUrl = some "tcg-five-1" ∧
    (buildResult "Foil" [pFoilCheaper]).price = some (999 / 100) ∧
    (buildResult "Foil" [pFoilCheaper]).purchaseUrl = some "tcg-foil" := by
  have h := (c4_cheapest_selection "Tie Card" [pFive1, pFive2]).2 5
    (by with_unfolding_all decide)
  exact ⟨by with_unfolding_all decide, h.2.2, by with_unfolding_all decide,
    by with_unfolding_all decide, by with_unfolding_all decide⟩

/-! ## Claim C5 -/

/-- C5: for every name already present in the cache, `getCardPrice`
returns the stored result unchanged, leaves the cache untouched,
performs zero network calls and emits nothing to the diagnostic
channel — the outcome is independent of the transport. -/
theorem c5_cache_hit (api : String → FetchResult) (cache : Cache)
    (name : String) (r : PriceResult) (h : cache name = some r) :
    getCardPrice api cache name =
      { result := some r, cache := cache, calls := 0, logged := false } :=
  getCardPrice_hit h

/-- C5 witness: a cache holding a result under "Hit" is returned
unchanged with zero calls, independent of the (always-failing) API. -/
theorem c5_cache_hit_witness :
    getCardPrice apiNet cacheHit "Hit" =
      { result := some rHit, cache := cacheHit, calls := 0, logged := false } :=
  c5_cache_hit apiNet cacheHit "Hit" rHit (by with_unfolding_all decide)

/-! ## Claim C6 -/

/-- C6: every `PriceResult` newly constructed and cached by
`getCardPrice` has `price` and `purchaseUrl` both present or both
absent, while its catalog URL is present (and the companion URL, being
a plain string field, always is) independently of the price. -/
theorem c6_result_invariant (api : String → FetchResult) (cache : Cache)
    (name n : String) (r : PriceResult) (hold : cache n = none)
    (hnew : (getCardPrice api cache name).cache n = some r) :
    ((r.price.isSome = true) ↔ (r.purchaseUrl.isSome = true)) ∧
    r.scryfallUrl.isSome = true := by
  cases hc : cache name with
  | some r0 =>
    rw [getCardPrice_hit hc] at hnew
    rw [show ({ result := some r0, cache := cache, calls := 0, logged := false } :
          ResolveOutcome).cache = cache from rfl, hold] at hnew
    exact Option.noConfusion hnew
  | none =>
    cases hapi : api name with
    | netError =>
      rw [getCardPrice_netError hc hapi] at hnew
      rw [show ({ result := none, cache := cache, calls := 1, logged := true } :
            ResolveOutcome).cache = cache from rfl, hold] at hnew
      exact Option.noConfusion hnew
    | httpError s =>
      rw [getCardPrice_httpError hc hapi] at hnew
      rw [show ({ result := none, cache := cache, calls := 1, logged := true } :
            ResolveOutcome).cache = cache from rfl, hold] at hnew
      exact Option.noConfusion hnew
    | ok ps =>
      cases ps with
      | nil =>
        rw [getCardPrice_emptyData hc hapi] at hnew
        rw [show ({ result := none, cache := cache, calls := 1, logged := false } :
              ResolveOutcome).cache = cache from rfl, hold] at hnew
        exact Option.noConfusion hnew
      | cons p rest =>
        have hne : p :: rest ≠ [] := by simp
        rw [getCardPrice_okData hc hapi hne] at hnew
        have hnew' : (if n = name then some (buildResult name (p :: rest))
            else cache n) = some r := hnew
        by_cases hn : n = name
        · rw [if_pos hn] at hnew'
          have hr : r = buildResult name (p :: rest) :=
            (Option.some.injEq _ _ ▸ hnew').symm
          subst hr
          constructor
          · rw [buildResult_price, buildResult_purchaseUrl]
            cases firstMinPair (parsedFacets (p :: rest)) <;> simp [toSel]
          · rw [buildResult_scryfallUrl]
            exact foldl_pickScryfall_isSome _ hne
        · rw [if_neg hn, hold] at hnew'
          exact Option.noConfusion hnew'

/-- C6 witness: the invariant evaluated on the result cached for the
price-less printing `pNoPrice`; its price is absent while the catalog
URL and the companion URL are still present. -/
theorem c6_result_invariant_witness :
    (((buildResult "No Price" [pNoPrice]).price.isSome = true) ↔
      ((buildResult "No Price" [pNoPrice]).purchaseUrl.isSome = true)) ∧
    (buildResult "No Price" [pNoPrice]).scryfallUrl.isSome = true := by
  have h := c6_result_invariant apiNoPrice emptyCache "No Price" "No Price"
    (buildResult "No Price" [pNoPrice]) rfl (by with_unfolding_all decide)
  exact h

/-! ## Claim C7 -/

/-- C7 counterexample: the claim says that whenever the resolution
result is non-null and its price is present, exactly one link cluster
is inserted; but for the concrete element `eZero` the resolver returns
a result whose price is present (0), and nothing is inserted. -/
theorem c7_zero_price_counterexample :
    (addPriceToCard apiZero emptyCache eZero).result ≠ none ∧
    ((addPriceToCard apiZero emptyCache eZero).result.bind PriceResult.price) = some 0 ∧
    (addPriceToCard apiZero emptyCache eZero).placement = .noInsert := by
  exact ⟨by with_unfolding_all decide, by with_unfolding_all decide,
    by with_unfolding_all decide⟩

/-- C7 (amended): for every unprocessed element with a truthy
extracted name, the element ends marked processed; if the resolution
result is null, or its price is absent or zero, nothing is inserted;
otherwise exactly one link cluster is inserted, its price label is the
price formatted to two decimal places, and it is placed as the
element's next sibling when the element has a parent, else appended as
the element's own child. -/
theorem c7_annotation_behavior (api : String → FetchResult) (cache : Cache)
    (e : CardElement) (s : String) (h1 : e.priceAdded = false)
    (h2 : getCardName e = some s) (h3 : s ≠ "") :
    (addPriceToCard api cache e).element.priceAdded = true ∧
    (((getCardPrice api cache s).result = none ∨
      ((getCardPrice api cache s).result.bind PriceResult.price) = none ∨
      ((getCardPrice api cache s).result.bind PriceResult.price) = some 0) →
      (addPriceToCard api cache e).placement = .noInsert ∧
      (addPriceToCard api cache e).label = none) ∧
    (∀ (r : PriceResult) (p : Rat), (getCardPrice api cache s).result = some r →
      r.price = some p → p ≠ 0 →
      (addPriceToCard api cache e).placement =
        (if e.hasParent then .nextSibling else .childOfElement) ∧
      (addPriceToCard api cache e).label = some ("$" ++ toFixed2 p)) := by
  rw [addPriceToCard_named h1 h2 h3]
  refine ⟨rfl, ?_, ?_⟩
  · intro hdisj
    cases hres : (getCardPrice api cache s).result with
    | none => exact ⟨by simp [insertPlacement], by simp [insertLabel]⟩
    | some r =>
      rcases hdisj with hd | hd | hd
      · rw [hres] at hd
        exact Option.noConfusion hd
      · rw [hres] at hd
        simp only [Option.bind_eq_bind, Option.some_bind] at hd
        exact ⟨by simp [insertPlacement, jsPriceTruthy, hd],
          by simp [insertLabel, jsPriceTruthy, hd]⟩
      · rw [hres] at hd
        simp only [Option.bind_eq_bind, Option.some_bind] at hd
        exact ⟨by simp [insertPlacement, jsPriceTruthy, hd],
          by simp [insertLabel, jsPriceTruthy, hd]⟩
  · intro r p hr hp hp0
    rw [hr]
    exact ⟨by simp [insertPlacement, jsPriceTruthy, hp, hp0],
      by simp [insertLabel, jsPriceTruthy, hp, hp0]⟩

/-- C7 witness: the amended claim evaluated on the concrete element
`eFoil` resolving to the 9.99 foil price: one cluster is inserted as
the next sibling with label two-decimal "$9.99". -/
theorem c7_annotation_behavior_witness :
    (addPriceToCard apiFoil emptyCache eFoil).placement = .nextSibling ∧
    (addPriceToCard apiFoil emptyCache eFoil).label = some ("$" ++ toFixed2 (999 / 100)) ∧
    ("$" ++ toFixed2 ((999 : Rat) / 100)) = "$9.99" := by
  have h := (c7_annotation_behavior apiFoil emptyCache eFoil "Foil Card"
      (by decide) (by decide) (by decide)).2.2
      (buildResult "Foil Card" [pFoilCheaper]) (999 / 100)
      (by with_unfolding_all decide) (by with_unfolding_all decide)
      (by with_unfolding_all decide)
  exact ⟨h.1.trans (by rfl), h.2, by with_unfolding_all decide⟩

/-! ## Claim C8 -/

/-- C8: for every card name, the companion URL slug computed by the
script equals the name lowercased with every run of non-alphanumeric
characters replaced by a single hyphen and all leading/trailing
hyphens trimmed (no network access is involved: `edhrecSlug` is a pure
function); in particular "Fire // Ice" yields "fire-ice". -/
theorem c8_companion_slug :
    (∀ name : String, edhrecSlug name = specSlug name) ∧
    edhrecSlug "Fire // Ice" = "fire-ice" := by
  constructor
  · intro name
    rw [edhrecSlug, specSlug]
    have h0 : NoAdjHyphen (slugChars name) := noAdjHyphen_collapseGo _ false
    have h1 := dropLead_eq_dropWhile h0
    have h2 := noAdjHyphen_dropLead h0
    rw [dropTrail_eq_dropWhile h2, h1]
  · decide

/-! ## Claim C9 -/

/-- C9: for every burst of mutation notifications in which each
notification arrives strictly less than 300 time-units after the
previous one, exactly one scan fires, 300 time-units after the last
notification of the burst (trailing debounce: each new notification
cancels and restarts the pending timer). -/
theorem c9_debounce_single_scan (ts : List Nat) (t : Nat)
    (hlast : ts.getLast? = some t) (hburst : tightBurst ts = true) :
    scanTimes ts = [t + debounceMs] := by
  induction ts with
  | nil => exact Option.noConfusion hlast
  | cons a tl ih =>
    cases tl with
    | nil =>
      have ha : a = t := by simpa using hlast
      subst ha
      rfl
    | cons b r =>
      have hb : b < a + debounceMs := by
        have h' : (decide (b < a + debounceMs) && tightBurst (b :: r)) = true := hburst
        exact of_decide_eq_true (Bool.and_elim_left h')
      have hburst' : tightBurst (b :: r) = true := by
        have h' : (decide (b < a + debounceMs) && tightBurst (b :: r)) = true := hburst
        exact Bool.and_elim_right h'
      have hlast' : (b :: r).getLast? = some t := by
        rw [← List.getLast?_cons_cons]
        exact hlast
      have hstep : scanTimes (a :: b :: r) = scanTimes (b :: r) := by
        show (if b < a + debounceMs then scanTimes (b :: r)
              else (a + debounceMs) :: scanTimes (b :: r)) = scanTimes (b :: r)
        rw [if_pos hb]
      rw [hstep]
      exact ih hlast' hburst'

/-- C9 witness: ten notifications spaced 50 time-units apart produce
exactly one scan, at time 450 + 300 = 750. -/
theorem c9_debounce_single_scan_witness : scanTimes burst10 = [750] :=
  (c9_debounce_single_scan burst10 450 (by decide) (by decide)).trans (by decide)

/-! ## Claim C10 -/

/-- C10: for every resolved result whose price is exactly 0, the
annotator inserts no link cluster and no label — a zero price is
indistinguishable from an absent price at the annotation layer — even
though such a zero-price result is produced by the cheapest-price scan
from the price string "0" and is stored in the cache. -/
theorem c10_zero_price_no_insert :
    (∀ (hasParent : Bool) (r : PriceResult), r.price = some 0 →
      insertPlacement hasParent (some r) = .noInsert ∧
      insertLabel (some r) = none) ∧
    ((getCardPrice apiZero emptyCache "Zero").result.bind PriceResult.price = some 0 ∧
      (getCardPrice apiZero emptyCache "Zero").cache "Zero" =
        (getCardPrice apiZero emptyCache "Zero").result) := by
  constructor
  · intro hasParent r h
    exact ⟨by simp [insertPlacement, jsPriceTruthy, h],
      by simp [insertLabel, jsPriceTruthy, h]⟩
  · exact ⟨by with_unfolding_all decide, by with_unfolding_all decide⟩

/-- C10 witness: the no-insert consequence evaluated on the concrete
zero-priced result built from the printing `pZero`. -/
theorem c10_zero_price_no_insert_witness :
    insertPlacement true (some (buildResult "Zero" [pZero])) = .noInsert ∧
    insertLabel (some (buildResult "Zero" [pZero])) = none :=
  c10_zero_price_no_insert.1 true (buildResult "Zero" [pZero])
    (by with_unfolding_all decide)

end MoxPricer
